import Mathlib

set_option maxHeartbeats 1000000

/-!
Shallow embedding of the deepali spatial-transform core: cubic B-spline
free-form deformations (src/deepali/transforms/spatial/bspline.py) and
composite spatial transformations (src/deepali/transforms/spatial/composite.py).
Points and tensor entries are modelled over the rationals; Python exceptions
are modelled with Except over an explicit error kind.
-/

namespace Deepali

/-- Error kinds raised by the embedded code, mirroring the Python exception
classes that the two source modules raise or can hit. -/
inductive Err where
  | valueError
  | typeError
  | indexError
  | attrError
deriving DecidableEq, Repr

/-- A batch-free homogeneous transformation matrix: linear part plus
translation.  Models the (D, D + 1) tensor obtained from a linear
SpatialTransform.tensor() after core.linalg.as_homogeneous_matrix. -/
structure HomMat (d : ℕ) where
  A : Matrix (Fin d) (Fin d) ℚ
  b : Fin d → ℚ
deriving DecidableEq

/-- Apply a homogeneous matrix to a point: y = A x + b.  Modelled from the
spec: the SpatialTransform base class forward applies self.tensor() when the
transformation is linear. -/
def applyHom {d : ℕ} (m : HomMat d) (x : Fin d → ℚ) : Fin d → ℚ :=
  m.A.mulVec x + m.b

/-- torch.eye(ndim, ndim + 1): the identity homogeneous matrix returned by the
composite tensor() methods for an empty composite. -/
def idHom (d : ℕ) : HomMat d := ⟨1, 0⟩

/-- Elementwise sum of homogeneous matrices, as performed by
MultiLevelTransform.tensor() with mat += as_homogeneous_matrix(t.tensor()). -/
def addHom {d : ℕ} (m n : HomMat d) : HomMat d := ⟨m.A + n.A, m.b + n.b⟩

/-- core.linalg.homogeneous_matmul m n: the homogeneous matrix of the
composition that applies n first and m second. -/
def homogeneous_matmul {d : ℕ} (m n : HomMat d) : HomMat d :=
  ⟨m.A * n.A, m.A.mulVec n.b + m.b⟩

theorem applyHom_id {d : ℕ} (x : Fin d → ℚ) : applyHom (idHom d) x = x := by
  simp [applyHom, idHom, Matrix.one_mulVec]

theorem applyHom_matmul {d : ℕ} (m n : HomMat d) (x : Fin d → ℚ) :
    applyHom (homogeneous_matmul m n) x = applyHom m (applyHom n x) := by
  simp only [applyHom, homogeneous_matmul, Matrix.mulVec_add, Matrix.mulVec_mulVec]
  abel

namespace MultiLevelTransform

/-- MultiLevelTransform.tensor(), linear branch (composite.py lines 231-240):
starts from the homogeneous matrix of the first member and adds the
homogeneous matrix of every further member; identity when empty. -/
def tensorLinear {d : ℕ} : List (HomMat d) → HomMat d
  | [] => idHom d
  | t :: rest => rest.foldl addHom t

/-- Linear fast path of MultiLevelTransform.forward (composite.py lines
206-209): the base class forward applies the composite self.tensor() matrix
once to the input points. -/
def forwardFast {d : ℕ} (ts : List (HomMat d)) (x : Fin d → ℚ) : Fin d → ℚ :=
  applyHom (tensorLinear ts) x

/-- General path of MultiLevelTransform.forward (composite.py lines 210-215):
every member is applied independently to the original points and the induced
displacements are summed, y = x + sum over i of (T_i(x) - x). -/
def forwardGeneral {d : ℕ} (ts : List (HomMat d)) (x : Fin d → ℚ) : Fin d → ℚ :=
  x + (ts.map (fun t => applyHom t x - x)).sum

end MultiLevelTransform

/-- A member of a SequentialTransform: a linear spatial transformation given by
its homogeneous matrix together with its inverse(link, update_buffers) method,
which either returns the inverse transformation or raises that member own
error (spec: NotImplementedError when inversion is unsupported). -/
inductive MemberL (ε : Type) (d : ℕ) where
  | mk (mat : HomMat d) (invm : Bool → Bool → Except ε (MemberL ε d))

/-- Homogeneous matrix of a member (its tensor() representation). -/
def MemberL.mat {ε : Type} {d : ℕ} : MemberL ε d → HomMat d
  | .mk m _ => m

/-- The inverse(link, update_buffers) method of a member. -/
def MemberL.invm {ε : Type} {d : ℕ} :
    MemberL ε d → Bool → Bool → Except ε (MemberL ε d)
  | .mk _ f => f

namespace SequentialTransform

/-- SequentialTransform.tensor(), linear branch (composite.py lines 280-289):
left-composes the matrix of each further member with the accumulator via
homogeneous_matmul(transform.tensor(), mat); identity when empty. -/
def tensorLinear {d : ℕ} : List (HomMat d) → HomMat d
  | [] => idHom d
  | t :: rest => rest.foldl (fun acc m => homogeneous_matmul m acc) t

/-- SequentialTransform.forward for a composite whose members are all linear
(composite.py lines 260-261): the base class forward applies the composite
tensor() matrix once. -/
def forwardLinear {ε : Type} {d : ℕ} (ts : List (String × MemberL ε d))
    (x : Fin d → ℚ) : Fin d → ℚ :=
  applyHom (tensorLinear (ts.map (fun p => p.2.mat))) x

/-- The loop of SequentialTransform.inverse (composite.py lines 318-324) after
the member collection has been reversed: invert each member in turn with link
and update_buffers propagated, keeping its name; the first member failure is
raised and propagates. -/
def invertMembers {ε : Type} {d : ℕ} (link ub : Bool) :
    List (String × MemberL ε d) → Except ε (List (String × MemberL ε d))
  | [] => .ok []
  | p :: rest =>
    match p.2.invm link ub with
    | .error e => .error e
    | .ok m =>
      match invertMembers link ub rest with
      | .error e => .error e
      | .ok ms => .ok ((p.1, m) :: ms)

/-- SequentialTransform.inverse (composite.py lines 292-324): a copy whose
member collection is the original members reversed in order, each individually
inverted with link and update_buffers propagated. -/
def inverse {ε : Type} {d : ℕ} (link ub : Bool)
    (ts : List (String × MemberL ε d)) :
    Except ε (List (String × MemberL ε d)) :=
  invertMembers link ub ts.reverse

end SequentialTransform

/-- If some member of the collection fails to invert, the member loop of
SequentialTransform.inverse raises an error, and the raised error is one
raised by a member of the collection. -/
theorem invertMembers_error {ε : Type} {d : ℕ} (link ub : Bool) :
    ∀ ts : List (String × MemberL ε d),
      (∃ p ∈ ts, ∃ e, p.2.invm link ub = .error e) →
      ∃ e2, SequentialTransform.invertMembers link ub ts = .error e2
        ∧ ∃ q ∈ ts, q.2.invm link ub = .error e2 := by
  intro ts
  induction ts with
  | nil => rintro ⟨p, hp, _⟩; cases hp
  | cons p rest ih =>
    rintro ⟨p0, hp0, e, he⟩
    cases hp : p.2.invm link ub with
    | error e1 =>
      exact ⟨e1, by simp [SequentialTransform.invertMembers, hp],
        p, List.mem_cons_self _ _, hp⟩
    | ok m =>
      have hrest : ∃ q ∈ rest, ∃ e1, q.2.invm link ub = Except.error e1 := by
        rcases List.mem_cons.mp hp0 with h | h
        · subst h; rw [he] at hp; cases hp
        · exact ⟨p0, h, e, he⟩
      obtain ⟨e2, heq, q, hq, hqe⟩ := ih hrest
      refine ⟨e2, ?_, q, List.mem_cons_of_mem _ hq, hqe⟩
      simp [SequentialTransform.invertMembers, hp, heq]

/-- C1: for an additive composite (MultiLevelTransform) whose members are all
linear, the matrix fast path and the general displacement-sum path disagree on
the concrete failing input: with two members both the identity transform and
probe point x = (1), the fast path applies the summed homogeneous matrix and
returns (2), while the general path returns x + ((x - x) + (x - x)) = (1). -/
theorem C1_multilevel_fastpath_vs_general :
    MultiLevelTransform.forwardFast [idHom 1, idHom 1] (fun _ => (1 : ℚ))
        = (fun _ => (2 : ℚ))
    ∧ MultiLevelTransform.forwardGeneral [idHom 1, idHom 1] (fun _ => (1 : ℚ))
        = (fun _ => (1 : ℚ))
    ∧ (fun _ : Fin 1 => (2 : ℚ)) ≠ (fun _ : Fin 1 => (1 : ℚ)) := by
  refine ⟨?_, ?_, ?_⟩
  · funext i
    simp [MultiLevelTransform.forwardFast, MultiLevelTransform.tensorLinear,
      addHom, idHom, applyHom, Matrix.add_mulVec, Matrix.one_mulVec]
    norm_num
  · funext i
    simp [MultiLevelTransform.forwardGeneral, applyHom_id]
  · intro h
    have := congrFun h 0
    norm_num at this

/-- C2: SequentialTransform.inverse returns the member collection reversed in
order with every member individually inverted (link and update_buffers
propagated); for two invertible linear members A then B the inverse composite
applied after the forward composite recovers every probe point exactly; and if
any member fails to invert, the composite inverse fails, propagating a
error of the failing member itself. -/
theorem C2_sequential_inverse_spec {ε : Type} {d : ℕ} (link ub : Bool)
    (A B Ainv Binv : HomMat d)
    (fa fb : Bool → Bool → Except ε (MemberL ε d))
    (a2 b2 : MemberL ε d)
    (ha : fa link ub = .ok a2) (hamat : a2.mat = Ainv)
    (hb : fb link ub = .ok b2) (hbmat : b2.mat = Binv)
    (hAinv : homogeneous_matmul Ainv A = idHom d)
    (hBinv : homogeneous_matmul Binv B = idHom d) :
    SequentialTransform.inverse link ub
        [("0", MemberL.mk A fa), ("1", MemberL.mk B fb)]
      = .ok [("1", b2), ("0", a2)]
    ∧ (∀ x : Fin d → ℚ,
        SequentialTransform.forwardLinear [("1", b2), ("0", a2)]
          (SequentialTransform.forwardLinear
            [("0", MemberL.mk A fa), ("1", MemberL.mk B fb)] x) = x)
    ∧ (∀ (ts : List (String × MemberL ε d)) (p : String × MemberL ε d) (e : ε),
        p ∈ ts → p.2.invm link ub = .error e →
        ∃ e2, SequentialTransform.inverse link ub ts = .error e2
          ∧ ∃ q ∈ ts, q.2.invm link ub = .error e2) := by
  refine ⟨?_, ?_, ?_⟩
  · simp [SequentialTransform.inverse, SequentialTransform.invertMembers,
      MemberL.invm, ha, hb]
  · intro x
    have e1 : SequentialTransform.forwardLinear [("1", b2), ("0", a2)]
        = applyHom (homogeneous_matmul a2.mat b2.mat) := rfl
    have e2 : SequentialTransform.forwardLinear
        [("0", MemberL.mk A fa), ("1", MemberL.mk B fb)]
        = applyHom (homogeneous_matmul B A) := rfl
    rw [e1, e2, hamat, hbmat, applyHom_matmul, applyHom_matmul,
      ← applyHom_matmul Binv B, hBinv, applyHom_id,
      ← applyHom_matmul Ainv A, hAinv, applyHom_id]
  · intro ts p e hmem he
    obtain ⟨e2, heq, q, hq, hqe⟩ :=
      invertMembers_error link ub ts.reverse
        ⟨p, List.mem_reverse.mpr hmem, e, he⟩
    exact ⟨e2, heq, q, List.mem_reverse.mp hq, hqe⟩

/-- Inverse of the member named 0 in the C2 witness: the linear map x / 2. -/
def C2AinvMem : MemberL Unit 1 := .mk ⟨!![(1 : ℚ)/2], 0⟩ (fun _ _ => .error ())

/-- Inverse of the member named 1 in the C2 witness: the linear map x / 3. -/
def C2BinvMem : MemberL Unit 1 := .mk ⟨!![(1 : ℚ)/3], 0⟩ (fun _ _ => .error ())

/-- Member named 0 in the C2 witness: the invertible linear map 2 x. -/
def C2AMem : MemberL Unit 1 := .mk ⟨!![(2 : ℚ)], 0⟩ (fun _ _ => .ok C2AinvMem)

/-- Member named 1 in the C2 witness: the invertible linear map 3 x. -/
def C2BMem : MemberL Unit 1 := .mk ⟨!![(3 : ℚ)], 0⟩ (fun _ _ => .ok C2BinvMem)

/-- Witness for C2 at concrete members 2 x and 3 x with probe point 7. -/
theorem C2_sequential_inverse_witness :
    SequentialTransform.inverse true false [("0", C2AMem), ("1", C2BMem)]
      = .ok [("1", C2BinvMem), ("0", C2AinvMem)]
    ∧ SequentialTransform.forwardLinear [("1", C2BinvMem), ("0", C2AinvMem)]
        (SequentialTransform.forwardLinear [("0", C2AMem), ("1", C2BMem)]
          (fun _ => (7 : ℚ))) = (fun _ => (7 : ℚ)) := by
  have hA : homogeneous_matmul ⟨!![(1 : ℚ)/2], 0⟩ ⟨!![(2 : ℚ)], 0⟩ = idHom 1 := by
    simp [homogeneous_matmul, idHom, Matrix.mulVec_zero]
    ext i j
    fin_cases i; fin_cases j
    simp [Matrix.one_apply]
  have hB : homogeneous_matmul ⟨!![(1 : ℚ)/3], 0⟩ ⟨!![(3 : ℚ)], 0⟩ = idHom 1 := by
    simp [homogeneous_matmul, idHom, Matrix.mulVec_zero]
    ext i j
    fin_cases i; fin_cases j
    simp [Matrix.one_apply]
  have h := C2_sequential_inverse_spec true false
    ⟨!![(2 : ℚ)], 0⟩ ⟨!![(3 : ℚ)], 0⟩ ⟨!![(1 : ℚ)/2], 0⟩ ⟨!![(1 : ℚ)/3], 0⟩
    (fun _ _ => .ok C2AinvMem) (fun _ _ => .ok C2BinvMem)
    C2AinvMem C2BinvMem rfl rfl rfl rfl hA hB
  exact ⟨h.1, h.2.1 _⟩

/-- Grid domain collaborator (core.grid.Grid), consumed read-only.  Modelled
from the spec: per-axis shape (in the internal, tensor dimension order), the
attributes compared by the domain-equality predicate (center, direction,
extent), and the align_corners flag. -/
structure Grid where
  shape : List ℕ
  center : ℤ
  direction : ℤ
  extent : ℤ
  align_corners : Bool
deriving DecidableEq, Repr

/-- Number of spatial dimensions of a grid. -/
def Grid.ndim (g : Grid) : ℕ := g.shape.length

/-- Modelled from the spec: Grid.same_domain_as, the domain-equality predicate
(same center, direction, and cube extent) independent of resolution. -/
def Grid.same_domain_as (a b : Grid) : Bool :=
  a.center == b.center && a.direction == b.direction && a.extent == b.extent

/-- An object that can appear as a member value in a CompositeTransform:
either a Grid instance (which has no grid() method) or a module-like object
with an is-SpatialTransform flag and its own grid. -/
inductive Obj where
  | gridO (g : Grid)
  | transO (isSpatial : Bool) (grid : Grid)
deriving DecidableEq, Repr

/-- Whether isinstance(obj, SpatialTransform) holds. -/
def Obj.isSpatialTransform : Obj → Bool
  | .transO s _ => s
  | .gridO _ => false

theorem Grid.same_domain_as_self (g : Grid) : g.same_domain_as g = true := by
  simp [Grid.same_domain_as]

namespace CompositeTransform

/-- One positional argument of CompositeTransform.__init__: None, a named
mapping, or a plain object (a Grid or a transform-like module). -/
inductive Arg where
  | noneA
  | dictA (ts : List (String × Obj))
  | objA (o : Obj)
deriving DecidableEq, Repr

/-- Member entries of the transforms collection keep the raw argument so that
a dict or Grid placed in member position is detected by the isinstance check
in the member loop, exactly as in the source. -/
def nameMembers (i : ℕ) : List Arg → List (String × Arg)
  | [] => []
  | a :: rest => (toString i, a) :: nameMembers (i + 1) rest

/-- composite.py lines 65-75: build the ordered transforms collection from the
positional arguments that follow an optional leading Grid; a dict argument
must be the only one, and otherwise the arguments are enumerated with
stringified indices as names. -/
def buildTransforms : List Arg → Except Err (List (String × Arg))
  | [] => .ok []
  | .dictA ts :: rest =>
    if rest.isEmpty then .ok (ts.map (fun p => (p.1, Arg.objA p.2)))
    else .error .valueError
  | args2 => .ok (nameMembers 0 args2)

/-- composite.py lines 76-83: use the explicit grid when given, otherwise take
the grid of the first member via its grid() method (an object without that
method makes the attribute access fail), and fail when there is neither a grid
nor any member. -/
def inferGrid : Option Grid → List (String × Arg) → Except Err Grid
  | some g, _ => .ok g
  | none, [] => .error .valueError
  | none, (_, a) :: _ =>
    match a with
    | .objA (.transO _ g) => .ok g
    | _ => .error .attrError

/-- composite.py lines 84-92: iterate the members in insertion order, raising
TypeError at the first member that is not a SpatialTransform and ValueError at
the first member whose grid has a different domain. -/
def checkMembers (g : Grid) : List (String × Arg) → Except Err Unit
  | [] => .ok ()
  | (_, a) :: rest =>
    match a with
    | .objA (.transO true gm) =>
      if gm.same_domain_as g = true then checkMembers g rest
      else .error .valueError
    | _ => .error .typeError

/-- Body of CompositeTransform.__init__ after None arguments have been
dropped: indexing args_[0] fails on an empty list, a leading Grid is split
off, the ordered member collection is built, the composite grid determined,
and every member validated in insertion order. -/
def initCore : List Arg → Except Err (Grid × List (String × Arg))
  | [] => .error .indexError
  | a0 :: rest =>
    let p : Option Grid × List Arg :=
      match a0 with
      | .objA (.gridO g) => (some g, rest)
      | _ => (none, a0 :: rest)
    match buildTransforms p.2 with
    | .error e => .error e
    | .ok transforms =>
      match inferGrid p.1 transforms with
      | .error e => .error e
      | .ok grid =>
        match checkMembers grid transforms with
        | .error e => .error e
        | .ok _ => .ok (grid, transforms)

/-- CompositeTransform.__init__ (composite.py lines 56-94): drop None
arguments, then run the constructor body; on success it returns the composite
grid and the members in insertion order. -/
def init (args : List Arg) : Except Err (Grid × List (String × Arg)) :=
  initCore (args.filter (fun a => a != Arg.noneA))

/-- Argument wrapping a SpatialTransform member with the given grid. -/
def spatialArg (gm : Grid) : Arg := Arg.objA (Obj.transO true gm)

theorem filter_noneA {l : List Arg} (h : Arg.noneA ∉ l) :
    l.filter (fun a => a != Arg.noneA) = l := by
  rw [List.filter_eq_self]
  intro a ha
  have hne : a ≠ Arg.noneA := fun he => h (he ▸ ha)
  simp [bne_iff_ne, hne]

theorem init_eq_core {l : List Arg} (h : Arg.noneA ∉ l) : init l = initCore l := by
  unfold init
  rw [filter_noneA h]

theorem noneA_not_mem_map_spatialArg (ms : List Grid) :
    Arg.noneA ∉ ms.map spatialArg := by
  intro h
  rcases List.mem_map.mp h with ⟨gm, _, he⟩
  simp [spatialArg] at he

theorem buildTransforms_objA (o : Obj) (rest : List Arg) :
    buildTransforms (Arg.objA o :: rest)
      = .ok (nameMembers 0 (Arg.objA o :: rest)) := rfl

theorem checkMembers_all_ok (g : Grid) : ∀ (ms : List Grid) (i : ℕ),
    (∀ gm ∈ ms, gm.same_domain_as g = true) →
    checkMembers g (nameMembers i (ms.map spatialArg)) = .ok () := by
  intro ms
  induction ms with
  | nil => intro i _; rfl
  | cons gm rest ih =>
    intro i h
    simp only [List.map_cons, nameMembers, spatialArg, checkMembers]
    rw [if_pos (h gm (List.mem_cons_self _ _))]
    exact ih (i + 1) (fun x hx => h x (List.mem_cons_of_mem _ hx))

theorem checkMembers_skip_ok (g : Grid) (tail : List Arg) :
    ∀ (pre : List Grid) (i : ℕ), (∀ gm ∈ pre, gm.same_domain_as g = true) →
      checkMembers g (nameMembers i (pre.map spatialArg ++ tail))
        = checkMembers g (nameMembers (i + pre.length) tail) := by
  intro pre
  induction pre with
  | nil => intro i _; simp [nameMembers]
  | cons gm rest ih =>
    intro i h
    simp only [List.map_cons, List.cons_append, nameMembers, spatialArg,
      checkMembers]
    rw [if_pos (h gm (List.mem_cons_self _ _))]
    simp only [List.append_eq]
    rw [ih (i + 1) (fun x hx => h x (List.mem_cons_of_mem _ hx))]
    have : i + 1 + rest.length = i + (rest.length + 1) := by omega
    rw [this]
    rfl

theorem checkMembers_bad_type (g : Grid) (b : Obj)
    (hb : b.isSpatialTransform = false) (post : List Arg) (i : ℕ) :
    checkMembers g (nameMembers i (Arg.objA b :: post)) = .error .typeError := by
  cases b with
  | gridO g0 => rfl
  | transO s gbad =>
    cases s with
    | false => rfl
    | true => simp [Obj.isSpatialTransform] at hb

theorem checkMembers_bad_domain (g gb : Grid)
    (hgb : gb.same_domain_as g = false) (post : List Arg) (i : ℕ) :
    checkMembers g (nameMembers i (Arg.objA (Obj.transO true gb) :: post))
      = .error .valueError := by
  simp only [nameMembers, checkMembers]
  rw [if_neg (by rw [hgb]; exact Bool.false_ne_true)]

theorem initCore_grid_all (g : Grid) (ms : List Grid) :
    initCore (Arg.objA (Obj.gridO g) :: ms.map spatialArg)
      = match checkMembers g (nameMembers 0 (ms.map spatialArg)) with
        | .error e => .error e
        | .ok _ => .ok (g, nameMembers 0 (ms.map spatialArg)) := by
  cases ms with
  | nil => rfl
  | cons m ms2 => rfl

theorem initCore_infer_all (gm0 : Grid) (ms : List Grid) :
    initCore ((gm0 :: ms).map spatialArg)
      = match checkMembers gm0 (nameMembers 0 ((gm0 :: ms).map spatialArg)) with
        | .error e => .error e
        | .ok _ => .ok (gm0, nameMembers 0 ((gm0 :: ms).map spatialArg)) := rfl

theorem initCore_grid_members (g : Grid) (pre : List Grid) (o : Obj)
    (post : List Arg) :
    initCore (Arg.objA (Obj.gridO g)
        :: (pre.map spatialArg ++ Arg.objA o :: post))
      = match checkMembers g
            (nameMembers 0 (pre.map spatialArg ++ Arg.objA o :: post)) with
        | .error e => .error e
        | .ok _ =>
          .ok (g, nameMembers 0 (pre.map spatialArg ++ Arg.objA o :: post)) := by
  cases pre with
  | nil => rfl
  | cons p0 pre2 => rfl

end CompositeTransform

/-- C3 counterexample: construction with no arguments at all (no grid and no
members) raises IndexError from indexing args_[0], which is neither the
ValueError nor the TypeError class that the claim groups as configuration
errors. -/
theorem C3_empty_construction_counterexample :
    CompositeTransform.init [] = .error .indexError
    ∧ Err.indexError ≠ Err.valueError
    ∧ Err.indexError ≠ Err.typeError := by
  exact ⟨rfl, by decide, by decide⟩

/-- C3 (amended): CompositeTransform construction raises ValueError or
TypeError when a dict argument is followed by further arguments, when no
domain can be determined from an empty members dict with no grid, and — at the
first violating member in insertion order — when a member is not a spatial
transform (TypeError) or its grid has a different domain (ValueError); an
entirely empty argument list instead raises IndexError, and grid inference
from a first member value without a grid() method raises AttributeError;
otherwise construction succeeds, with the explicit or inferred grid, and
preserves insertion order of the members. -/
theorem C3_composite_init_amended :
    (CompositeTransform.init [] = .error .indexError)
    ∧ (∀ (ts : List (String × Obj)) (a : CompositeTransform.Arg)
          (rest : List CompositeTransform.Arg),
        a ≠ CompositeTransform.Arg.noneA → CompositeTransform.Arg.noneA ∉ rest →
        CompositeTransform.init (CompositeTransform.Arg.dictA ts :: a :: rest)
          = .error .valueError)
    ∧ (∀ (g : Grid) (ts : List (String × Obj)) (a : CompositeTransform.Arg)
          (rest : List CompositeTransform.Arg),
        a ≠ CompositeTransform.Arg.noneA → CompositeTransform.Arg.noneA ∉ rest →
        CompositeTransform.init (CompositeTransform.Arg.objA (Obj.gridO g)
            :: CompositeTransform.Arg.dictA ts :: a :: rest)
          = .error .valueError)
    ∧ (CompositeTransform.init [CompositeTransform.Arg.dictA []]
        = .error .valueError)
    ∧ (∀ (n : String) (g0 : Grid) (ts : List (String × Obj)),
        CompositeTransform.init
            [CompositeTransform.Arg.dictA ((n, Obj.gridO g0) :: ts)]
          = .error .attrError)
    ∧ (∀ (g : Grid) (ms : List Grid),
        (∀ gm ∈ ms, gm.same_domain_as g = true) →
        CompositeTransform.init (CompositeTransform.Arg.objA (Obj.gridO g)
            :: ms.map CompositeTransform.spatialArg)
          = .ok (g, CompositeTransform.nameMembers 0
              (ms.map CompositeTransform.spatialArg)))
    ∧ (∀ (gm0 : Grid) (ms : List Grid),
        (∀ gm ∈ ms, gm.same_domain_as gm0 = true) →
        CompositeTransform.init ((gm0 :: ms).map CompositeTransform.spatialArg)
          = .ok (gm0, CompositeTransform.nameMembers 0
              ((gm0 :: ms).map CompositeTransform.spatialArg)))
    ∧ (∀ (g : Grid) (pre : List Grid) (b : Obj)
          (post : List CompositeTransform.Arg),
        (∀ gm ∈ pre, gm.same_domain_as g = true) →
        b.isSpatialTransform = false → CompositeTransform.Arg.noneA ∉ post →
        CompositeTransform.init (CompositeTransform.Arg.objA (Obj.gridO g)
            :: (pre.map CompositeTransform.spatialArg
                ++ CompositeTransform.Arg.objA b :: post))
          = .error .typeError)
    ∧ (∀ (g : Grid) (pre : List Grid) (gb : Grid)
          (post : List CompositeTransform.Arg),
        (∀ gm ∈ pre, gm.same_domain_as g = true) →
        gb.same_domain_as g = false → CompositeTransform.Arg.noneA ∉ post →
        CompositeTransform.init (CompositeTransform.Arg.objA (Obj.gridO g)
            :: (pre.map CompositeTransform.spatialArg
                ++ CompositeTransform.spatialArg gb :: post))
          = .error .valueError) := by
  refine ⟨rfl, ?_, ?_, rfl, ?_, ?_, ?_, ?_, ?_⟩
  · intro ts a rest ha hrest
    have hnone : CompositeTransform.Arg.noneA
        ∉ (CompositeTransform.Arg.dictA ts :: a :: rest) := by
      intro hm
      rcases List.mem_cons.mp hm with h1 | h1
      · exact absurd h1 (by simp)
      · rcases List.mem_cons.mp h1 with h2 | h2
        · exact ha h2.symm
        · exact hrest h2
    rw [CompositeTransform.init_eq_core hnone]
    rfl
  · intro g ts a rest ha hrest
    have hnone : CompositeTransform.Arg.noneA
        ∉ (CompositeTransform.Arg.objA (Obj.gridO g)
            :: CompositeTransform.Arg.dictA ts :: a :: rest) := by
      intro hm
      rcases List.mem_cons.mp hm with h1 | h1
      · exact absurd h1 (by simp)
      · rcases List.mem_cons.mp h1 with h2 | h2
        · exact absurd h2 (by simp)
        · rcases List.mem_cons.mp h2 with h3 | h3
          · exact ha h3.symm
          · exact hrest h3
    rw [CompositeTransform.init_eq_core hnone]
    rfl
  · intro n g0 ts
    rfl
  · intro g ms h
    have hnone : CompositeTransform.Arg.noneA
        ∉ (CompositeTransform.Arg.objA (Obj.gridO g)
            :: ms.map CompositeTransform.spatialArg) := by
      intro hm
      rcases List.mem_cons.mp hm with h1 | h1
      · exact absurd h1 (by simp)
      · exact CompositeTransform.noneA_not_mem_map_spatialArg ms h1
    rw [CompositeTransform.init_eq_core hnone,
      CompositeTransform.initCore_grid_all,
      CompositeTransform.checkMembers_all_ok g ms 0 h]
  · intro gm0 ms h
    have hall : ∀ gm ∈ gm0 :: ms, gm.same_domain_as gm0 = true := by
      intro x hx
      rcases List.mem_cons.mp hx with h1 | h1
      · rw [h1]; exact Grid.same_domain_as_self gm0
      · exact h x h1
    rw [CompositeTransform.init_eq_core
        (CompositeTransform.noneA_not_mem_map_spatialArg (gm0 :: ms)),
      CompositeTransform.initCore_infer_all,
      CompositeTransform.checkMembers_all_ok gm0 (gm0 :: ms) 0 hall]
  · intro g pre b post hpre hb hpost
    have hnone : CompositeTransform.Arg.noneA
        ∉ (CompositeTransform.Arg.objA (Obj.gridO g)
            :: (pre.map CompositeTransform.spatialArg
                ++ CompositeTransform.Arg.objA b :: post)) := by
      intro hm
      rcases List.mem_cons.mp hm with h1 | h1
      · exact absurd h1 (by simp)
      · rcases List.mem_append.mp h1 with h2 | h2
        · exact CompositeTransform.noneA_not_mem_map_spatialArg pre h2
        · rcases List.mem_cons.mp h2 with h3 | h3
          · exact absurd h3 (by simp)
          · exact hpost h3
    rw [CompositeTransform.init_eq_core hnone,
      CompositeTransform.initCore_grid_members,
      CompositeTransform.checkMembers_skip_ok g _ pre 0 hpre,
      CompositeTransform.checkMembers_bad_type g b hb post (0 + pre.length)]
  · intro g pre gb post hpre hgb hpost
    have hnone : CompositeTransform.Arg.noneA
        ∉ (CompositeTransform.Arg.objA (Obj.gridO g)
            :: (pre.map CompositeTransform.spatialArg
                ++ CompositeTransform.spatialArg gb :: post)) := by
      intro hm
      rcases List.mem_cons.mp hm with h1 | h1
      · exact absurd h1 (by simp)
      · rcases List.mem_append.mp h1 with h2 | h2
        · exact CompositeTransform.noneA_not_mem_map_spatialArg pre h2
        · rcases List.mem_cons.mp h2 with h3 | h3
          · exact absurd h3 (by simp [CompositeTransform.spatialArg])
          · exact hpost h3
    rw [CompositeTransform.init_eq_core hnone]
    simp only [CompositeTransform.spatialArg]
    rw [CompositeTransform.initCore_grid_members,
      CompositeTransform.checkMembers_skip_ok g _ pre 0 hpre,
      CompositeTransform.checkMembers_bad_domain g gb hgb post (0 + pre.length)]

/-- Witness for C3 at a concrete grid and two concrete matching members. -/
theorem C3_composite_init_witness :
    CompositeTransform.init [CompositeTransform.Arg.objA
        (Obj.gridO ⟨[4, 5], 1, 2, 3, true⟩),
      CompositeTransform.spatialArg ⟨[4, 5], 1, 2, 3, true⟩,
      CompositeTransform.spatialArg ⟨[8, 9], 1, 2, 3, true⟩]
      = .ok (⟨[4, 5], 1, 2, 3, true⟩,
        CompositeTransform.nameMembers 0
          [CompositeTransform.spatialArg ⟨[4, 5], 1, 2, 3, true⟩,
           CompositeTransform.spatialArg ⟨[8, 9], 1, 2, 3, true⟩]) := by
  have h := (C3_composite_init_amended).2.2.2.2.2.1 ⟨[4, 5], 1, 2, 3, true⟩
    [⟨[4, 5], 1, 2, 3, true⟩, ⟨[8, 9], 1, 2, 3, true⟩] (by decide)
  exact h

/-- A dense multi-dimensional tensor over the rationals: a shape together with
an entry function on index lists (entries outside the shape carry no
meaning). -/
structure Tens where
  shape : List ℕ
  val : List ℕ → ℚ

/-- torch.zeros of the given shape. -/
def zerosT (shape : List ℕ) : Tens := ⟨shape, fun _ => 0⟩

/-- torch.nn.init.constant_(t, 0): zero tensor of the same shape. -/
def zeroLike (t : Tens) : Tens := ⟨t.shape, fun _ => 0⟩

/-- The cubic B-spline basis function on the support (-2, 2). -/
def cubicBSplineFn (t : ℚ) : ℚ :=
  if |t| < 1 then (4 - 6 * |t| ^ 2 + 3 * |t| ^ 3) / 6
  else if |t| < 2 then (2 - |t|) ^ 3 / 6
  else 0

/-- Modelled from the spec: core.kernels.cubic_bspline1d, the 1-D cubic
B-spline kernel for integer control point spacing s, sampling the basis
function at spacing 1 / s across its support of width 4, giving 4 s - 1
taps centered at tap index 2 s - 1. -/
def cubic_bspline1d (s : ℕ) : List ℚ :=
  (List.range (4 * s - 1)).map
    (fun i : ℕ => cubicBSplineFn (((i : ℚ) + 1 - 2 * (s : ℚ)) / (s : ℚ)))

/-- All multi-indices below the given bounds, in lexicographic order. -/
def multiIndices : List ℕ → List (List ℕ)
  | [] => [[]]
  | n :: ns =>
    (List.range n).flatMap (fun i => (multiIndices ns).map (fun is => i :: is))

/-- Tap p of a 1-D kernel, zero outside the kernel support. -/
def kval (k : List ℚ) (p : ℤ) : ℚ :=
  if 0 ≤ p then k.getD p.toNat 0 else 0

/-- Separable weight relating control point multi-index a to output
multi-index b: the product over axes of the kernel tap at b - a * stride. -/
def sepWeight : List (List ℚ) → List ℕ → List ℕ → List ℕ → ℚ
  | k :: ks, s :: ss, a :: arest, b :: brest =>
    kval k ((b : ℤ) - (a : ℤ) * (s : ℤ)) * sepWeight ks ss arest brest
  | [], [], [], [] => 1
  | _, _, _, _ => 0

/-- Per-axis output length of the zipped shape computation. -/
def zipWith3 {α β γ δ : Type} (f : α → β → γ → δ) :
    List α → List β → List γ → List δ
  | a :: l1, b :: l2, c :: l3 => f a b c :: zipWith3 f l1 l2 l3
  | _, _, _ => []

/-- Modelled from the spec: core.functional.conv with transpose=True and zero
padding — the separable transposed convolution of the spatial dimensions (all
dimensions after the two leading ones) of the data tensor with one 1-D kernel
and one integer stride per spatial axis; output axis size (n - 1) * s + len(k),
output entry the sum over all control point multi-indices of the data entry
times the separable kernel weight. -/
def convTranspose (data : Tens) (kernels : List (List ℚ)) (strides : List ℕ) :
    Tens where
  shape := data.shape.take 2
    ++ zipWith3 (fun n s k => (n - 1) * s + List.length k)
        (data.shape.drop 2) strides kernels
  val := fun idx =>
    match idx with
    | b :: c :: js =>
      ((multiIndices (data.shape.drop 2)).map
        (fun is => data.val (b :: c :: is) * sepWeight kernels strides is js)).sum
    | _ => 0

/-- Length of the Python slice(off, off + len) of an axis of size n. -/
def sliceLen (n off len : ℕ) : ℕ := min (off + len) n - min off n

/-- Python basic slicing u[:, :, off0:off0+len0, ...]: keep the two leading
dimensions whole and slice every spatial axis. -/
def cropSpatial (u : Tens) (offs lens : List ℕ) : Tens where
  shape := u.shape.take 2
    ++ zipWith3 (fun n o l => sliceLen n o l) (u.shape.drop 2) offs lens
  val := fun idx =>
    match idx with
    | b :: c :: js =>
      u.val (b :: c :: List.zipWith (fun j o => j + o) js offs)
    | _ => 0

/-- State of a BSplineTransform module: sampling grid, per-axis stride stored
in reversed (tensor dimension) order, coefficient tensor, whether the
parameters are produced by a callable, the number of transformations, the
derived buffers u and (for the stationary velocity variant) v, and the
registered kernel buffers of this instance. -/
structure BSplineState where
  grid : Grid
  stride : List ℕ
  params : Tens
  paramsCallable : Bool
  groups : ℕ
  u : Tens
  v : Option Tens
  kernels : List (String × List ℚ)

/-- Ceiling division on naturals, math.ceil(a / s) for s at least 1. -/
def ceilDiv (a s : ℕ) : ℕ := (a + s - 1) / s

/-- BSplineTransform.data_shape (bspline.py lines 73-78): one lattice value
per spatial dimension, ceil((n - 1) / s) + 3, prefixed by grid.ndim. -/
def data_shape (g : Grid) (stride : List ℕ) : List ℕ :=
  g.ndim :: List.zipWith (fun n s => ceilDiv (n - 1) s + 3) g.shape stride

/-- BSplineTransform.kernel_name (bspline.py lines 132-135). -/
def kernel_name (s : ℕ) : String := "kernel_stride_" ++ toString s

/-- Lookup of a registered buffer by name (getattr / hasattr on the module
buffer dictionary). -/
def findBuf : List (String × List ℚ) → String → Option (List ℚ)
  | [], _ => none
  | (nm, k) :: rest, a => if nm = a then some k else findBuf rest a

/-- BSplineTransform.register_kernels (bspline.py lines 143-150): for every
requested stride value, register the 1-D cubic B-spline kernel under the
stride-keyed buffer name unless a buffer of that name already exists.  The
second component counts how many kernels this call actually computed. -/
def register_kernels : List (String × List ℚ) → List ℕ →
    List (String × List ℚ) × ℕ
  | bufs, [] => (bufs, 0)
  | bufs, s :: rest =>
    if (findBuf bufs (kernel_name s)).isSome then register_kernels bufs rest
    else
      let r := register_kernels (bufs ++ [(kernel_name s, cubic_bspline1d s)]) rest
      (r.1, r.2 + 1)

/-- BSplineTransform.kernel (bspline.py lines 137-141): the registered buffer
for the given stride (meaningless when no such buffer is registered). -/
def kernelOf (st : BSplineState) (s : ℕ) : List ℚ :=
  (findBuf st.kernels (kernel_name s)).getD []

/-- The params argument of BSplineTransform: a boolean, an explicit
coefficient tensor, or a callable producing the coefficients. -/
inductive ParamsArg where
  | boolP (b : Bool)
  | tensorP (t : Tens)
  | callableP

/-- bspline.py lines 59-62: default a missing stride to 5 and broadcast a
single integer to one value per spatial dimension; an explicit sequence is
kept as given. -/
def broadcastStride (ndim : ℕ) : Option (ℕ ⊕ List ℕ) → List ℕ
  | none => List.replicate ndim 5
  | some (.inl k) => List.replicate ndim k
  | some (.inr l) => l

/-- bspline.py lines 66-67: groups defaults to the leading dimension of a
supplied coefficient tensor, else to 1. -/
def deriveGroups : Option ℕ → ParamsArg → ℕ
  | some gp, _ => gp
  | none, .tensorP t => t.shape.headI
  | none, _ => 1

/-- The stored coefficient tensor: a supplied tensor is kept, otherwise a
zero-initialized tensor of the parameter shape is allocated (modelled from the
spec: ParametricTransform allocates the zero coefficient tensor). -/
def initParams (grid : Grid) (groups : Option ℕ) (params : ParamsArg)
    (strideR : List ℕ) : Tens :=
  match params with
  | .tensorP t => t
  | _ => zerosT (deriveGroups groups params :: data_shape grid strideR)

/-- Whether the params argument is a callable producer. -/
def isCallableP : ParamsArg → Bool
  | .callableP => true
  | _ => false

/-- BSplineTransform.__init__ (bspline.py lines 29-71): require align_corners,
default the stride to 5, broadcast a single integer to one value per spatial
dimension and reject any other arity, store the stride reversed, derive groups
from the leading dimension of a supplied coefficient tensor when not given
(else 1), allocate the zero derived-field buffer, and register the kernels of
this new instance (starting from its empty buffer dict); the second component
counts the kernel computations performed by this construction. -/
def bsplineInit (grid : Grid) (groups : Option ℕ) (params : ParamsArg)
    (stride : Option (ℕ ⊕ List ℕ)) : Except Err (BSplineState × ℕ) :=
  if grid.align_corners = false then .error .valueError
  else if (broadcastStride grid.ndim stride).length ≠ grid.ndim then
    .error .valueError
  else
    .ok ({ grid := grid,
           stride := (broadcastStride grid.ndim stride).reverse,
           params := initParams grid groups params
             (broadcastStride grid.ndim stride).reverse,
           paramsCallable := isCallableP params,
           groups := deriveGroups groups params,
           u := zerosT (deriveGroups groups params
             :: data_shape grid (broadcastStride grid.ndim stride).reverse),
           v := none,
           kernels := (register_kernels [] (broadcastStride grid.ndim stride)).1 },
         (register_kernels [] (broadcastStride grid.ndim stride)).2)

/-- BSplineTransform.evaluate_spline (bspline.py lines 161-181): separable
transposed convolution of the coefficients with the per-axis registered
kernels at the per-axis stride, then crop stride[i] leading samples per
spatial axis to a window of the grid shape. -/
def evaluate_spline (st : BSplineState) : Tens :=
  let u := convTranspose st.params (st.stride.map (kernelOf st)) st.stride
  cropSpatial u st.stride st.grid.shape

/-- BSplineTransform.reset_parameters together with the
StationaryVelocityFreeFormDeformation override (bspline.py lines 80-86 and
222-228): zero the coefficients and the derived buffer u, and also v when
present. -/
def reset_parameters (st : BSplineState) : BSplineState :=
  { st with params := zeroLike st.params, u := zeroLike st.u,
            v := st.v.map zeroLike }

theorem length_cubic_bspline1d (s : ℕ) :
    (cubic_bspline1d s).length = 4 * s - 1 := by
  unfold cubic_bspline1d
  rw [List.length_map, List.length_range]

theorem ceilDiv_mul_ge (a s : ℕ) (hs : 1 ≤ s) : a ≤ ceilDiv a s * s := by
  have h := Nat.div_add_mod (a + s - 1) s
  rw [Nat.mul_comm] at h
  have hm : (a + s - 1) % s < s := Nat.mod_lt _ (by omega)
  unfold ceilDiv
  omega

theorem axis_len (n s : ℕ) (hn : 1 ≤ n) (hs : 1 ≤ s) :
    sliceLen ((ceilDiv (n - 1) s + 3 - 1) * s + (4 * s - 1)) s n = n := by
  have h := ceilDiv_mul_ge (n - 1) s hs
  have h3 : ceilDiv (n - 1) s + 3 - 1 = ceilDiv (n - 1) s + 2 := by omega
  rw [h3, Nat.add_mul]
  unfold sliceLen
  omega

theorem convTranspose_val_zero (data : Tens) (ks : List (List ℚ))
    (ss : List ℕ) (h : ∀ idx, data.val idx = 0) :
    ∀ idx, (convTranspose data ks ss).val idx = 0 := by
  intro idx
  cases idx with
  | nil => rfl
  | cons b rest =>
    cases rest with
    | nil => rfl
    | cons c js =>
      show (List.map _ _).sum = 0
      apply List.sum_eq_zero
      intro x hx
      rcases List.mem_map.mp hx with ⟨is, _, he⟩
      rw [← he, h, zero_mul]

theorem crop_shape_eq : ∀ ns ss : List ℕ, ns.length = ss.length →
    (∀ n ∈ ns, 1 ≤ n) → (∀ s ∈ ss, 1 ≤ s) →
    zipWith3 (fun n o l => sliceLen n o l)
      (zipWith3 (fun n s k => (n - 1) * s + List.length k)
        (List.zipWith (fun n s => ceilDiv (n - 1) s + 3) ns ss) ss
        (ss.map cubic_bspline1d))
      ss ns = ns := by
  intro ns
  induction ns with
  | nil =>
    intro ss hlen _ _
    cases ss with
    | nil => rfl
    | cons s srest => cases hlen
  | cons n nrest ih =>
    intro ss hlen hn hs
    cases ss with
    | nil => cases hlen
    | cons s srest =>
      simp only [List.zipWith_cons_cons, List.map_cons, zipWith3, List.cons.injEq]
      constructor
      · rw [length_cubic_bspline1d]
        exact axis_len n s (hn n (List.mem_cons_self _ _))
          (hs s (List.mem_cons_self _ _))
      · exact ih srest (by simpa using hlen)
          (fun x hx => hn x (List.mem_cons_of_mem _ hx))
          (fun x hx => hs x (List.mem_cons_of_mem _ hx))

/-- C4: for a freshly reset BSplineTransform the spline evaluation yields an
all-zero displacement field whose spatial shape exactly equals the shape of
the sampling grid, and reset also zeroes the derived buffer u and, when
present, v. -/
theorem C4_reset_evaluate_zero (st : BSplineState) (gA dimD : ℕ)
    (_hal : st.grid.align_corners = true)
    (hlen : st.stride.length = st.grid.shape.length)
    (hs : ∀ s ∈ st.stride, 1 ≤ s)
    (hn : ∀ n ∈ st.grid.shape, 1 ≤ n)
    (hshape : st.params.shape = gA :: dimD ::
      List.zipWith (fun n s => ceilDiv (n - 1) s + 3) st.grid.shape st.stride)
    (hker : ∀ s ∈ st.stride,
      findBuf st.kernels (kernel_name s) = some (cubic_bspline1d s)) :
    (∀ idx, (evaluate_spline (reset_parameters st)).val idx = 0)
    ∧ (evaluate_spline (reset_parameters st)).shape
        = gA :: dimD :: st.grid.shape
    ∧ (∀ idx, (reset_parameters st).u.val idx = 0)
    ∧ (∀ t idx, (reset_parameters st).v = some t → t.val idx = 0) := by
  have hzero : ∀ idx, (reset_parameters st).params.val idx = 0 := fun _ => rfl
  have hconv := convTranspose_val_zero (reset_parameters st).params
    ((reset_parameters st).stride.map (kernelOf (reset_parameters st)))
    (reset_parameters st).stride hzero
  refine ⟨?_, ?_, fun _ => rfl, ?_⟩
  · intro idx
    cases idx with
    | nil => rfl
    | cons b rest =>
      cases rest with
      | nil => rfl
      | cons c js =>
        show (convTranspose (reset_parameters st).params
            ((reset_parameters st).stride.map (kernelOf (reset_parameters st)))
            (reset_parameters st).stride).val
          (b :: c :: List.zipWith (fun j o => j + o) js
            (reset_parameters st).stride) = 0
        exact hconv _
  · show (cropSpatial (convTranspose (reset_parameters st).params
        (st.stride.map (kernelOf (reset_parameters st))) st.stride)
        st.stride st.grid.shape).shape = _
    have hmap : st.stride.map (kernelOf (reset_parameters st))
        = st.stride.map cubic_bspline1d := by
      apply List.map_congr_left
      intro s hsm
      show (findBuf st.kernels (kernel_name s)).getD [] = _
      rw [hker s hsm]
      rfl
    have hps : (reset_parameters st).params.shape = gA :: dimD ::
        List.zipWith (fun n s => ceilDiv (n - 1) s + 3) st.grid.shape
          st.stride := hshape
    rw [hmap]
    show ((convTranspose (reset_parameters st).params
        (st.stride.map cubic_bspline1d) st.stride).shape.take 2
      ++ zipWith3 (fun n o l => sliceLen n o l)
        ((convTranspose (reset_parameters st).params
          (st.stride.map cubic_bspline1d) st.stride).shape.drop 2)
        st.stride st.grid.shape) = _
    show ((reset_parameters st).params.shape.take 2 ++ _).take 2
      ++ zipWith3 _ (((reset_parameters st).params.shape.take 2 ++ _).drop 2)
        st.stride st.grid.shape = _
    rw [hps]
    show gA :: dimD :: zipWith3 (fun n o l => sliceLen n o l)
        (zipWith3 (fun n s k => (n - 1) * s + List.length k)
          (List.zipWith (fun n s => ceilDiv (n - 1) s + 3) st.grid.shape
            st.stride) st.stride (st.stride.map cubic_bspline1d))
        st.stride st.grid.shape = _
    rw [crop_shape_eq st.grid.shape st.stride hlen.symm hn hs]
  · intro t idx hv
    have hv2 : st.v.map zeroLike = some t := hv
    cases hstv : st.v with
    | none => rw [hstv] at hv2; cases hv2
    | some t0 =>
      rw [hstv] at hv2
      have ht : zeroLike t0 = t := by simpa using hv2
      rw [← ht]
      rfl

/-- Concrete state for the C4 witness: a 1-D grid of 3 samples with control
point stride 2, one group, and buffers allocated as by construction. -/
def C4st : BSplineState where
  grid := ⟨[3], 0, 0, 0, true⟩
  stride := [2]
  params := zerosT [1, 1, 4]
  paramsCallable := false
  groups := 1
  u := zerosT [1, 1, 4]
  v := some (zerosT [1, 1, 3])
  kernels := (register_kernels [] [2]).1

/-- Witness for C4 at the concrete state C4st. -/
theorem C4_reset_evaluate_zero_witness :
    (evaluate_spline (reset_parameters C4st)).shape = [1, 1, 3]
    ∧ (evaluate_spline (reset_parameters C4st)).val [0, 0, 1] = 0
    ∧ (reset_parameters C4st).u.val [0, 0, 2] = 0 := by
  have h := C4_reset_evaluate_zero C4st 1 1 rfl rfl
    (by decide) (by decide) (by decide) (by intro s hsm; fin_cases hsm; rfl)
  exact ⟨h.2.1, h.1 _, h.2.2.1 _⟩

/-- Per-axis in-bounds test of a multi-index against a shape. -/
def allLt : List ℕ → List ℕ → Bool
  | [], [] => true
  | i :: is, n :: ns => decide (i < n) && allLt is ns
  | _, _ => false

/-- Bounds-guarded entry access: zero outside the tensor shape. -/
def Tens.entry (t : Tens) (idx : List ℕ) : ℚ :=
  if allLt idx t.shape = true then t.val idx else 0

/-- Modelled from the spec: one axis of
core.functional.subdivide_cubic_bspline — the cubic B-spline control lattice
subdivision along tensor dimension dim, doubling the lattice resolution from n
to 2 n - 1 while preserving the represented continuous field, with the
standard cubic subdivision masks: an even new point j is
(c(j/2 - 1) + 6 c(j/2) + c(j/2 + 1)) / 8 and an odd new point is
(c(j/2) + c(j/2 + 1)) / 2, out-of-lattice neighbours contributing zero. -/
def subdivideDim (t : Tens) (dim : ℕ) : Tens where
  shape := t.shape.set dim (2 * t.shape.getD dim 0 - 1)
  val := fun idx =>
    let j := idx.getD dim 0
    if j % 2 = 0 then
      ((if j / 2 = 0 then 0 else t.entry (idx.set dim (j / 2 - 1)))
        + 6 * t.entry (idx.set dim (j / 2))
        + t.entry (idx.set dim (j / 2 + 1))) / 8
    else
      (t.entry (idx.set dim (j / 2)) + t.entry (idx.set dim (j / 2 + 1))) / 2

/-- Modelled from the spec: core.functional.subdivide_cubic_bspline applied to
every requested tensor dimension in turn. -/
def subdivide_cubic_bspline (t : Tens) (dims : List ℕ) : Tens :=
  dims.foldl subdivideDim t

/-- The per-axis loop of BSplineTransform.grid_ (bspline.py lines 119-126):
axis i with new size 2 n - 1 (checked first) is collected as tensor dimension
2 + i for subdivision, an axis with unchanged size is skipped, and any other
size relation raises ValueError. -/
def collectSubdivDims : List ℕ → List ℕ → ℕ → Except Err (List ℕ)
  | [], [], _ => .ok []
  | newn :: newRest, oldn :: oldRest, i =>
    if newn = 2 * oldn - 1 then
      (collectSubdivDims newRest oldRest (i + 1)).map (fun ds => (2 + i) :: ds)
    else if newn = oldn then collectSubdivDims newRest oldRest (i + 1)
    else .error .valueError
  | _, _, _ => .ok []

/-- BSplineTransform.grid_ (bspline.py lines 88-130): for callable parameters
only the grid reference is swapped; for tensor parameters the new grid must
have the same number of dimensions, be align_corners, and define the same
domain, then every axis must keep its size or qualify for subdivision, and the
coefficients are subdivided along the collected dimensions before the grid
reference is updated. -/
def grid_ (st : BSplineState) (g : Grid) : Except Err BSplineState :=
  if st.paramsCallable = true then .ok { st with grid := g }
  else if g.ndim ≠ st.grid.ndim then .error .valueError
  else if g.align_corners = false then .error .valueError
  else if g.same_domain_as st.grid = false then .error .valueError
  else
    match collectSubdivDims g.shape st.grid.shape 0 with
    | .error e => .error e
    | .ok dims =>
      .ok { st with
        params := if dims.isEmpty then st.params
                  else subdivide_cubic_bspline st.params dims,
        grid := g }

theorem collect_same_shape : ∀ (ns : List ℕ) (i : ℕ), (∀ n ∈ ns, 2 ≤ n) →
    collectSubdivDims ns ns i = .ok [] := by
  intro ns
  induction ns with
  | nil => intro i _; rfl
  | cons n rest ih =>
    intro i h
    have h2 : 2 ≤ n := h n (List.mem_cons_self _ _)
    have hne : ¬ (n = 2 * n - 1) := by omega
    simp only [collectSubdivDims]
    rw [if_neg hne]
    rw [if_pos trivial]
    exact ih (i + 1) (fun x hx => h x (List.mem_cons_of_mem _ hx))

theorem collect_mem_lb : ∀ (newS oldS : List ℕ) (i : ℕ) (dims : List ℕ),
    collectSubdivDims newS oldS i = .ok dims → ∀ x ∈ dims, 2 + i ≤ x := by
  intro newS
  induction newS with
  | nil =>
    intro oldS i dims h x hx
    cases oldS with
    | nil => cases h; cases hx
    | cons o os => cases h; cases hx
  | cons n ns ih =>
    intro oldS i dims h x hx
    cases oldS with
    | nil => cases h; cases hx
    | cons o os =>
      simp only [collectSubdivDims] at h
      by_cases h1 : n = 2 * o - 1
      · rw [if_pos h1] at h
        cases hc : collectSubdivDims ns os (i + 1) with
        | error e => rw [hc] at h; cases h
        | ok ds =>
          rw [hc] at h
          cases h
          rcases List.mem_cons.mp hx with h3 | h3
          · omega
          · have := ih os (i + 1) ds hc x h3
            omega
      · rw [if_neg h1] at h
        by_cases h2 : n = o
        · rw [if_pos h2] at h
          have := ih os (i + 1) dims h x hx
          omega
        · rw [if_neg h2] at h
          cases h

theorem collect_mem_iff : ∀ (newS oldS : List ℕ) (i : ℕ) (dims : List ℕ),
    newS.length = oldS.length →
    collectSubdivDims newS oldS i = .ok dims →
    ∀ k, (2 + i + k) ∈ dims ↔
      (k < newS.length ∧ newS.getD k 0 = 2 * oldS.getD k 0 - 1) := by
  intro newS
  induction newS with
  | nil =>
    intro oldS i dims hlen h k
    cases oldS with
    | nil =>
      cases h
      simp
    | cons o os => cases hlen
  | cons n ns ih =>
    intro oldS i dims hlen h k
    cases oldS with
    | nil => cases hlen
    | cons o os =>
      simp only [collectSubdivDims] at h
      by_cases h1 : n = 2 * o - 1
      · rw [if_pos h1] at h
        cases hc : collectSubdivDims ns os (i + 1) with
        | error e => rw [hc] at h; cases h
        | ok ds =>
          rw [hc] at h
          cases h
          cases k with
          | zero =>
            simp only [List.getD_cons_zero, List.length_cons]
            constructor
            · intro _; exact ⟨by omega, h1⟩
            · intro _; exact List.mem_cons_self _ _
          | succ k2 =>
            have hiff := ih os (i + 1) ds (by simpa using hlen) hc k2
            simp only [List.getD_cons_succ, List.length_cons]
            constructor
            · intro hm
              rcases List.mem_cons.mp hm with h3 | h3
              · omega
              · have : 2 + (i + 1) + k2 = 2 + i + (k2 + 1) := by omega
                rw [← this] at h3
                have h4 := hiff.mp h3
                exact ⟨by omega, h4.2⟩
            · intro ⟨hk, hrel⟩
              have h4 := hiff.mpr ⟨by omega, hrel⟩
              have : 2 + (i + 1) + k2 = 2 + i + (k2 + 1) := by omega
              rw [this] at h4
              exact List.mem_cons_of_mem _ h4
      · rw [if_neg h1] at h
        by_cases h2 : n = o
        · rw [if_pos h2] at h
          cases k with
          | zero =>
            simp only [List.getD_cons_zero, List.length_cons]
            constructor
            · intro hm
              have := collect_mem_lb ns os (i + 1) dims h _ hm
              omega
            · intro ⟨_, hrel⟩
              exact absurd hrel h1
          | succ k2 =>
            have hiff := ih os (i + 1) dims (by simpa using hlen) h k2
            simp only [List.getD_cons_succ, List.length_cons]
            have : 2 + (i + 1) + k2 = 2 + i + (k2 + 1) := by omega
            rw [← this]
            rw [hiff]
            omega
        · rw [if_neg h2] at h
          cases h

theorem collect_bad : ∀ (newS oldS : List ℕ) (i : ℕ),
    newS.length = oldS.length →
    (∃ k, k < newS.length ∧ ¬ (newS.getD k 0 = 2 * oldS.getD k 0 - 1)
      ∧ ¬ (newS.getD k 0 = oldS.getD k 0)) →
    collectSubdivDims newS oldS i = .error .valueError := by
  intro newS
  induction newS with
  | nil =>
    rintro oldS i hlen ⟨k, hk, _⟩
    simp at hk
  | cons n ns ih =>
    rintro oldS i hlen ⟨k, hk, hk1, hk2⟩
    cases oldS with
    | nil => cases hlen
    | cons o os =>
      simp only [collectSubdivDims]
      cases k with
      | zero =>
        simp only [List.getD_cons_zero] at hk1 hk2
        rw [if_neg hk1, if_neg hk2]
      | succ k2 =>
        simp only [List.getD_cons_succ, List.length_cons] at hk1 hk2 hk
        have hrec := ih os (i + 1) (by simpa using hlen) ⟨k2, by omega, hk1, hk2⟩
        by_cases h1 : n = 2 * o - 1
        · rw [if_pos h1, hrec]
          rfl
        · rw [if_neg h1]
          by_cases h2 : n = o
          · rw [if_pos h2, hrec]
          · rw [if_neg h2]

theorem grid_valid_unfold (st : BSplineState) (g : Grid)
    (h0 : st.paramsCallable = false) (h1 : g.ndim = st.grid.ndim)
    (h2 : g.align_corners = true) (h3 : g.same_domain_as st.grid = true) :
    grid_ st g = match collectSubdivDims g.shape st.grid.shape 0 with
      | .error e => .error e
      | .ok dims =>
        .ok { st with
          params := if dims.isEmpty then st.params
                    else subdivide_cubic_bspline st.params dims,
          grid := g } := by
  unfold grid_
  rw [if_neg (by simp [h0]), if_neg (by simp [h1]), if_neg (by simp [h2]),
    if_neg (by simp [h3])]

/-- Concrete state for the C6 counterexample: a grid with a single axis of
size 1, whose control lattice has ceil(0 / 1) + 3 = 3 points. -/
def C6st : BSplineState where
  grid := ⟨[1], 0, 0, 0, true⟩
  stride := [1]
  params := zerosT [1, 1, 3]
  paramsCallable := false
  groups := 1
  u := zerosT [1, 1, 3]
  v := none
  kernels := []

/-- C6 counterexample: rebinding to a grid with the same shape along every
axis does not leave the coefficient tensor bit-identical when an axis has size
1, because 1 = 2 * 1 - 1 is checked first and the axis is subdivided; the
coefficient lattice grows from 3 to 5 control points. -/
theorem C6_rebind_same_shape_counterexample :
    Except.map (fun s : BSplineState => s.params.shape)
        (grid_ C6st ⟨[1], 0, 0, 0, true⟩) = .ok [1, 1, 5]
    ∧ [1, 1, 5] ≠ C6st.params.shape := by
  exact ⟨rfl, by decide⟩

/-- C6 (amended): for tensor-stored coefficients, rebinding to a grid with the
same shape along every axis leaves the coefficient tensor bit-identical
provided every axis has size at least 2 (a size-1 axis satisfies 1 = 2n - 1
and is subdivided instead); subdivision is applied exactly to the axes whose
new size equals 2n - 1 (this condition being checked first), collected as
tensor dimensions 2 + i; and rebinding fails with ValueError when any axis has
another size relation, when the new grid has a different number of dimensions,
is not align_corners, or does not define the same domain. -/
theorem C6_grid_rebind_amended :
    (∀ (st : BSplineState) (g : Grid), st.paramsCallable = false →
      g.ndim = st.grid.ndim → g.align_corners = true →
      g.same_domain_as st.grid = true → g.shape = st.grid.shape →
      (∀ n ∈ st.grid.shape, 2 ≤ n) →
      grid_ st g = .ok { st with grid := g })
    ∧ (∀ (st : BSplineState) (g : Grid) (dims : List ℕ),
        st.paramsCallable = false → g.ndim = st.grid.ndim →
        g.align_corners = true → g.same_domain_as st.grid = true →
        collectSubdivDims g.shape st.grid.shape 0 = .ok dims → dims ≠ [] →
        grid_ st g = .ok { st with
          params := subdivide_cubic_bspline st.params dims, grid := g })
    ∧ (∀ (newS oldS dims : List ℕ), newS.length = oldS.length →
        collectSubdivDims newS oldS 0 = .ok dims →
        ∀ k, (2 + k) ∈ dims ↔
          (k < newS.length ∧ newS.getD k 0 = 2 * oldS.getD k 0 - 1))
    ∧ (∀ (st : BSplineState) (g : Grid), st.paramsCallable = false →
        g.ndim ≠ st.grid.ndim → grid_ st g = .error .valueError)
    ∧ (∀ (st : BSplineState) (g : Grid), st.paramsCallable = false →
        g.ndim = st.grid.ndim → g.align_corners = false →
        grid_ st g = .error .valueError)
    ∧ (∀ (st : BSplineState) (g : Grid), st.paramsCallable = false →
        g.ndim = st.grid.ndim → g.align_corners = true →
        g.same_domain_as st.grid = false → grid_ st g = .error .valueError)
    ∧ (∀ (st : BSplineState) (g : Grid), st.paramsCallable = false →
        g.ndim = st.grid.ndim → g.align_corners = true →
        g.same_domain_as st.grid = true →
        (∃ k, k < g.shape.length
          ∧ ¬ (g.shape.getD k 0 = 2 * st.grid.shape.getD k 0 - 1)
          ∧ ¬ (g.shape.getD k 0 = st.grid.shape.getD k 0)) →
        grid_ st g = .error .valueError) := by
  refine ⟨?_, ?_, ?_, ?_, ?_, ?_, ?_⟩
  · intro st g h0 h1 h2 h3 hshape hge
    rw [grid_valid_unfold st g h0 h1 h2 h3, hshape,
      collect_same_shape st.grid.shape 0 hge]
    rfl
  · intro st g dims h0 h1 h2 h3 hcollect hne
    rw [grid_valid_unfold st g h0 h1 h2 h3, hcollect]
    have hemp : dims.isEmpty = false := by
      cases dims with
      | nil => exact absurd rfl hne
      | cons d ds => rfl
    have hni : ¬ (dims.isEmpty = true) := by simp [hemp]
    show Except.ok ({ st with
        params := if dims.isEmpty = true then st.params
                  else subdivide_cubic_bspline st.params dims,
        grid := g }) = _
    rw [if_neg hni]
  · intro newS oldS dims hlen hc k
    have h := collect_mem_iff newS oldS 0 dims hlen hc k
    have h20 : 2 + 0 + k = 2 + k := by omega
    rw [h20] at h
    exact h
  · intro st g h0 hne
    unfold grid_
    rw [if_neg (by simp [h0]), if_pos hne]
  · intro st g h0 h1 h2
    unfold grid_
    rw [if_neg (by simp [h0]), if_neg (by simp [h1]), if_pos h2]
  · intro st g h0 h1 h2 h3
    unfold grid_
    rw [if_neg (by simp [h0]), if_neg (by simp [h1]), if_neg (by simp [h2]),
      if_pos h3]
  · intro st g h0 h1 h2 h3 hbad
    rw [grid_valid_unfold st g h0 h1 h2 h3,
      collect_bad g.shape st.grid.shape 0 h1 hbad]

/-- Concrete state for the C6 witness: a grid with one axis of 3 samples whose
rebinding target has 5 = 2 * 3 - 1 samples. -/
def C6wst : BSplineState where
  grid := ⟨[3], 5, 6, 7, true⟩
  stride := [1]
  params := zerosT [1, 1, 5]
  paramsCallable := false
  groups := 1
  u := zerosT [1, 1, 5]
  v := none
  kernels := []

/-- Witness for C6: subdividing rebinding at a concrete state, and the
collected dimension list at a concrete shape pair. -/
theorem C6_grid_rebind_witness :
    grid_ C6wst ⟨[5], 5, 6, 7, true⟩
      = .ok { C6wst with
          params := subdivide_cubic_bspline C6wst.params [2],
          grid := ⟨[5], 5, 6, 7, true⟩ }
    ∧ ((2 + 0) ∈ ([2] : List ℕ)
        ↔ (0 < [5].length ∧ [5].getD 0 0 = 2 * [3].getD 0 0 - 1)) := by
  have h := C6_grid_rebind_amended
  constructor
  · exact h.2.1 C6wst ⟨[5], 5, 6, 7, true⟩ [2] rfl rfl rfl rfl rfl
      (by decide)
  · exact h.2.2.1 [5] [3] [2] rfl rfl 0

/-- C8: BSplineTransform construction raises a ValueError when the grid is not
align_corners, and when an explicitly given stride sequence does not have
exactly one value per spatial dimension; a single integer stride is broadcast
to every spatial dimension; and groups, when not given, is the leading
dimension of a supplied coefficient tensor and 1 otherwise (an explicit groups
argument is kept). -/
theorem C8_bspline_init_spec :
    (∀ (grid : Grid) (gr : Option ℕ) (p : ParamsArg)
        (s : Option (ℕ ⊕ List ℕ)), grid.align_corners = false →
      bsplineInit grid gr p s = .error .valueError)
    ∧ (∀ (grid : Grid) (gr : Option ℕ) (p : ParamsArg) (l : List ℕ),
        grid.align_corners = true → l.length ≠ grid.ndim →
        bsplineInit grid gr p (some (.inr l)) = .error .valueError)
    ∧ (∀ (grid : Grid) (gr : Option ℕ) (p : ParamsArg) (l : List ℕ),
        grid.align_corners = true → l.length = grid.ndim →
        Except.map (fun r => r.1.stride) (bsplineInit grid gr p (some (.inr l)))
          = .ok l.reverse)
    ∧ (∀ (grid : Grid) (gr : Option ℕ) (p : ParamsArg) (k : ℕ),
        grid.align_corners = true →
        Except.map (fun r => r.1.stride) (bsplineInit grid gr p (some (.inl k)))
          = .ok (List.replicate grid.ndim k).reverse)
    ∧ (∀ (grid : Grid) (t : Tens) (k : ℕ), grid.align_corners = true →
        Except.map (fun r => r.1.groups)
          (bsplineInit grid none (.tensorP t) (some (.inl k)))
          = .ok t.shape.headI)
    ∧ (∀ (grid : Grid) (b : Bool) (k : ℕ), grid.align_corners = true →
        Except.map (fun r => r.1.groups)
          (bsplineInit grid none (.boolP b) (some (.inl k))) = .ok 1)
    ∧ (∀ (grid : Grid) (k : ℕ), grid.align_corners = true →
        Except.map (fun r => r.1.groups)
          (bsplineInit grid none .callableP (some (.inl k))) = .ok 1)
    ∧ (∀ (grid : Grid) (gp : ℕ) (p : ParamsArg) (k : ℕ),
        grid.align_corners = true →
        Except.map (fun r => r.1.groups)
          (bsplineInit grid (some gp) p (some (.inl k))) = .ok gp) := by
  refine ⟨?_, ?_, ?_, ?_, ?_, ?_, ?_, ?_⟩
  · intro grid gr p s hal
    unfold bsplineInit
    rw [if_pos hal]
  · intro grid gr p l hal hlen
    unfold bsplineInit
    rw [if_neg (by simp [hal]),
      if_pos (show (broadcastStride grid.ndim (some (Sum.inr l))).length
        ≠ grid.ndim from hlen)]
  · intro grid gr p l hal hlen
    unfold bsplineInit
    rw [if_neg (by simp [hal]), if_neg (by simp [broadcastStride, hlen])]
    rfl
  · intro grid gr p k hal
    unfold bsplineInit
    rw [if_neg (by simp [hal]), if_neg (by simp [broadcastStride])]
    rfl
  · intro grid t k hal
    unfold bsplineInit
    rw [if_neg (by simp [hal]), if_neg (by simp [broadcastStride])]
    rfl
  · intro grid b k hal
    unfold bsplineInit
    rw [if_neg (by simp [hal]), if_neg (by simp [broadcastStride])]
    rfl
  · intro grid k hal
    unfold bsplineInit
    rw [if_neg (by simp [hal]), if_neg (by simp [broadcastStride])]
    rfl
  · intro grid gp p k hal
    unfold bsplineInit
    rw [if_neg (by simp [hal]), if_neg (by simp [broadcastStride])]
    rfl

/-- Witness for C8 at a concrete 2-D grid: wrong stride arity fails, and the
derived group count of a supplied coefficient tensor is its leading
dimension. -/
theorem C8_bspline_init_witness :
    bsplineInit ⟨[4, 6], 0, 0, 0, true⟩ none (.boolP true) (some (.inr [3]))
      = .error .valueError
    ∧ Except.map (fun r => r.1.groups)
        (bsplineInit ⟨[4, 6], 0, 0, 0, true⟩ none (.tensorP (zerosT [7, 2, 4, 4]))
          (some (.inl 3))) = .ok 7 := by
  constructor
  · exact C8_bspline_init_spec.2.1 ⟨[4, 6], 0, 0, 0, true⟩ none
      (.boolP true) [3] rfl (by decide)
  · exact C8_bspline_init_spec.2.2.2.2.1 ⟨[4, 6], 0, 0, 0, true⟩
      (zerosT [7, 2, 4, 4]) 3 rfl

/-- C10: for every construction with stride None (and a valid grid), the
effective stride is 5 along every spatial dimension, which differs from the
stride of 1 that the constructor docstring announces whenever there is at
least one spatial dimension. -/
theorem C10_default_stride_five (grid : Grid) (gr : Option ℕ) (p : ParamsArg)
    (hal : grid.align_corners = true) :
    Except.map (fun r => r.1.stride) (bsplineInit grid gr p none)
      = .ok (List.replicate grid.ndim 5)
    ∧ (1 ≤ grid.ndim →
      Except.map (fun r => r.1.stride) (bsplineInit grid gr p none)
        ≠ .ok (List.replicate grid.ndim 1)) := by
  have h5 : Except.map (fun r : BSplineState × ℕ => r.1.stride)
      (bsplineInit grid gr p none) = .ok (List.replicate grid.ndim 5) := by
    unfold bsplineInit
    rw [if_neg (by simp [hal]), if_neg (by simp [broadcastStride])]
    show Except.ok (List.replicate grid.ndim 5).reverse = _
    rw [List.reverse_replicate]
  refine ⟨h5, ?_⟩
  intro hnd he
  rw [h5] at he
  have heq : List.replicate grid.ndim (5 : ℕ) = List.replicate grid.ndim 1 :=
    Except.ok.inj he
  rcases Nat.exists_eq_add_of_le hnd with ⟨m, hm⟩
  rw [hm, Nat.add_comm, List.replicate_succ, List.replicate_succ] at heq
  injection heq with h51 _
  exact absurd h51 (by decide)

/-- Witness for C10 at a concrete 2-D grid. -/
theorem C10_default_stride_five_witness :
    Except.map (fun r => r.1.stride)
        (bsplineInit ⟨[4, 6], 0, 0, 0, true⟩ none (.boolP true) none)
      = .ok [5, 5]
    ∧ Except.map (fun r => r.1.stride)
        (bsplineInit ⟨[4, 6], 0, 0, 0, true⟩ none (.boolP true) none)
      ≠ .ok [1, 1] := by
  have h := C10_default_stride_five ⟨[4, 6], 0, 0, 0, true⟩ none
    (.boolP true) rfl
  exact ⟨h.1, h.2 (by decide)⟩

theorem findBuf_append_some : ∀ (l1 l2 : List (String × List ℚ))
    (nm : String) (k : List ℚ), findBuf l1 nm = some k →
    findBuf (l1 ++ l2) nm = some k := by
  intro l1
  induction l1 with
  | nil => intro l2 nm k h; cases h
  | cons p rest ih =>
    intro l2 nm k h
    obtain ⟨a, b⟩ := p
    simp only [List.cons_append, findBuf] at h ⊢
    by_cases ha : a = nm
    · rw [if_pos ha] at h ⊢; exact h
    · rw [if_neg ha] at h ⊢; exact ih l2 nm k h

theorem findBuf_append_none : ∀ (l1 l2 : List (String × List ℚ))
    (nm : String), findBuf l1 nm = none →
    findBuf (l1 ++ l2) nm = findBuf l2 nm := by
  intro l1
  induction l1 with
  | nil => intro l2 nm _; rfl
  | cons p rest ih =>
    intro l2 nm h
    obtain ⟨a, b⟩ := p
    simp only [List.cons_append, findBuf] at h ⊢
    by_cases ha : a = nm
    · rw [if_pos ha] at h; cases h
    · rw [if_neg ha] at h ⊢; exact ih l2 nm h

theorem findBuf_none_not_mem : ∀ (l : List (String × List ℚ)) (nm : String),
    findBuf l nm = none → nm ∉ l.map Prod.fst := by
  intro l
  induction l with
  | nil => intro nm _ h; cases h
  | cons p rest ih =>
    intro nm h hmem
    obtain ⟨a, b⟩ := p
    simp only [findBuf] at h
    by_cases ha : a = nm
    · rw [if_pos ha] at h; cases h
    · rw [if_neg ha] at h
      rcases List.mem_cons.mp hmem with h1 | h1
      · exact ha h1.symm
      · exact ih nm h h1

theorem register_kernels_preserve : ∀ (strides : List ℕ)
    (bufs : List (String × List ℚ)) (nm : String) (k : List ℚ),
    findBuf bufs nm = some k →
    findBuf (register_kernels bufs strides).1 nm = some k := by
  intro strides
  induction strides with
  | nil => intro bufs nm k h; exact h
  | cons s rest ih =>
    intro bufs nm k h
    simp only [register_kernels]
    by_cases hs : (findBuf bufs (kernel_name s)).isSome = true
    · rw [if_pos hs]; exact ih bufs nm k h
    · rw [if_neg hs]
      exact ih _ nm k (findBuf_append_some bufs _ nm k h)

theorem register_kernels_isSome : ∀ (strides : List ℕ)
    (bufs : List (String × List ℚ)) (s : ℕ), s ∈ strides →
    (findBuf (register_kernels bufs strides).1 (kernel_name s)).isSome
      = true := by
  intro strides
  induction strides with
  | nil => intro bufs s h; cases h
  | cons s2 rest ih =>
    intro bufs s h
    simp only [register_kernels]
    by_cases hs2 : (findBuf bufs (kernel_name s2)).isSome = true
    · rw [if_pos hs2]
      rcases List.mem_cons.mp h with h1 | h1
      · subst h1
        obtain ⟨k, hk⟩ := Option.isSome_iff_exists.mp hs2
        rw [register_kernels_preserve rest bufs _ k hk]
        rfl
      · exact ih bufs s h1
    · rw [if_neg hs2]
      rcases List.mem_cons.mp h with h1 | h1
      · subst h1
        have hnone : findBuf bufs (kernel_name s) = none := by
          cases hc : findBuf bufs (kernel_name s) with
          | none => rfl
          | some v => rw [hc] at hs2; exact absurd rfl hs2
        have happ : findBuf (bufs ++ [(kernel_name s, cubic_bspline1d s)])
            (kernel_name s) = some (cubic_bspline1d s) := by
          rw [findBuf_append_none bufs _ _ hnone]
          simp [findBuf]
        rw [register_kernels_preserve rest _ _ _ happ]
        rfl
      · exact ih _ s h1

theorem register_kernels_noop : ∀ (strides : List ℕ)
    (bufs : List (String × List ℚ)),
    (∀ s ∈ strides, (findBuf bufs (kernel_name s)).isSome = true) →
    register_kernels bufs strides = (bufs, 0) := by
  intro strides
  induction strides with
  | nil => intro bufs _; rfl
  | cons s rest ih =>
    intro bufs h
    simp only [register_kernels]
    rw [if_pos (h s (List.mem_cons_self _ _))]
    exact ih bufs (fun x hx => h x (List.mem_cons_of_mem _ hx))

theorem register_kernels_nodup_keys : ∀ (strides : List ℕ)
    (bufs : List (String × List ℚ)), (bufs.map Prod.fst).Nodup →
    (((register_kernels bufs strides).1).map Prod.fst).Nodup := by
  intro strides
  induction strides with
  | nil => intro bufs h; exact h
  | cons s rest ih =>
    intro bufs h
    simp only [register_kernels]
    by_cases hs : (findBuf bufs (kernel_name s)).isSome = true
    · rw [if_pos hs]; exact ih bufs h
    · rw [if_neg hs]
      have hnone : findBuf bufs (kernel_name s) = none := by
        cases hc : findBuf bufs (kernel_name s) with
        | none => rfl
        | some v => rw [hc] at hs; exact absurd rfl hs
      have hnd : ((bufs ++ [(kernel_name s, cubic_bspline1d s)]).map
          Prod.fst).Nodup := by
        rw [List.map_append]
        refine List.Nodup.append h (by simp) ?_
        intro a ha hb
        simp only [List.map_cons, List.map_nil, List.mem_singleton] at hb
        subst hb
        exact findBuf_none_not_mem bufs _ hnone ha
      exact ih _ hnd

theorem register_kernels_replicate_count (m k : ℕ) :
    (register_kernels [] (List.replicate (m + 1) k)).2 = 1 := by
  simp only [List.replicate_succ, register_kernels]
  rw [if_neg (by simp [findBuf])]
  rw [register_kernels_noop (List.replicate m k) _ ?_]
  · intro s hs
    have hsk : s = k := List.eq_of_mem_replicate hs
    subst hsk
    simp [findBuf]

/-- C9 counterexample: a construction of a new BSplineTransform performs one
kernel computation for its stride even when an earlier construction by another
owner already computed the kernel for that same stride — the buffer cache is
per instance (register_buffer on self), so a later construction does not reuse
a previously cached kernel; the claim would require zero computations. -/
theorem C9_kernel_cache_counterexample :
    Except.map (fun r => r.2)
        (bsplineInit ⟨[4], 0, 0, 0, true⟩ none (.boolP true) (some (.inl 3)))
      = .ok 1
    ∧ (1 : ℕ) ≠ 0 := ⟨rfl, by decide⟩

/-- C9 (amended): within one BSplineTransform instance the kernel buffers form
a stride-keyed cache — an existing entry is never replaced by a later
registration, every requested stride has an entry after registration, a
repeated registration of the same strides computes nothing and leaves the
buffers unchanged, and the buffer names stay pairwise distinct (one kernel per
key); but the cache is per instance, not shared across owners: every
construction starts from an empty buffer dict and performs its own kernel
computation (one per distinct stride value). -/
theorem C9_kernel_cache_amended :
    (∀ (strides : List ℕ) (bufs : List (String × List ℚ)) (nm : String)
        (k : List ℚ), findBuf bufs nm = some k →
      findBuf (register_kernels bufs strides).1 nm = some k)
    ∧ (∀ (strides : List ℕ) (bufs : List (String × List ℚ)) (s : ℕ),
        s ∈ strides →
        (findBuf (register_kernels bufs strides).1 (kernel_name s)).isSome
          = true)
    ∧ (∀ (strides : List ℕ) (bufs : List (String × List ℚ)),
        register_kernels (register_kernels bufs strides).1 strides
          = ((register_kernels bufs strides).1, 0))
    ∧ (∀ (strides : List ℕ) (bufs : List (String × List ℚ)),
        (bufs.map Prod.fst).Nodup →
        (((register_kernels bufs strides).1).map Prod.fst).Nodup)
    ∧ (∀ (grid : Grid) (gr : Option ℕ) (p : ParamsArg) (k : ℕ),
        grid.align_corners = true → 1 ≤ grid.ndim →
        Except.map (fun r => r.2) (bsplineInit grid gr p (some (.inl k)))
          = .ok 1) := by
  refine ⟨register_kernels_preserve, register_kernels_isSome, ?_,
    register_kernels_nodup_keys, ?_⟩
  · intro strides bufs
    exact register_kernels_noop strides _
      (fun s hs => register_kernels_isSome strides bufs s hs)
  · intro grid gr p k hal hnd
    unfold bsplineInit
    rw [if_neg (by simp [hal]), if_neg (by simp [broadcastStride])]
    show Except.ok (register_kernels [] (List.replicate grid.ndim k)).2 = _
    rcases Nat.exists_eq_add_of_le hnd with ⟨m, hm⟩
    rw [hm, Nat.add_comm, register_kernels_replicate_count]

/-- Witness for C9: a repeated registration of the strides (2, 2) on the same
instance computes nothing, and the kernel for stride 2 is present. -/
theorem C9_kernel_cache_witness :
    register_kernels (register_kernels [] [2, 2]).1 [2, 2]
      = ((register_kernels [] [2, 2]).1, 0)
    ∧ (findBuf (register_kernels [] [2, 2]).1 (kernel_name 2)).isSome
      = true := by
  have h := C9_kernel_cache_amended
  exact ⟨h.2.2.1 [2, 2] [], h.2.1 [2, 2] [] 2 (by decide)⟩

/-- The derived buffers of a StationaryVelocityFreeFormDeformation, abstracted
over the buffer contents. -/
structure DerivedBufs (β : Type) where
  v : β
  u : β
deriving DecidableEq

/-- FreeFormDeformation.update (bspline.py lines 187-191): u :=
evaluate_spline() when the evaluation succeeds; an evaluation failure raises
before the assignment, leaving the buffer as it was.  The result is the buffer
after the call, together with the raised error if any. -/
def ffdUpdate {ε β : Type} (evalRes : Except ε β) (u0 : β) : β × Option ε :=
  match evalRes with
  | .error e => (u0, some e)
  | .ok unew => (unew, none)

/-- StationaryVelocityFreeFormDeformation.update (bspline.py lines 260-265):
self.v = self.evaluate_spline() and then self.u = self.exp(self.v).  The first
assignment happens before the integration runs, so a failing integration
leaves v freshly assigned while u keeps its prior contents. -/
def svffdUpdate {ε β : Type} (evalRes : Except ε β)
    (expFlow : β → Except ε β) (st : DerivedBufs β) :
    DerivedBufs β × Option ε :=
  match evalRes with
  | .error e => (st, some e)
  | .ok vnew =>
    match expFlow vnew with
    | .error e => ({ st with v := vnew }, some e)
    | .ok unew => (⟨vnew, unew⟩, none)

/-- C5 counterexample: when the B-spline evaluation succeeds with a new value
1 and the scaling-and-squaring integration then fails, update raises but
leaves v = 1 while the prior contents were 0 — the buffers are left partially
updated, contradicting the claim that every derived buffer retains its prior
contents on any evaluation failure. -/
theorem C5_update_atomicity_counterexample :
    svffdUpdate (ε := Unit) (β := ℚ) (.ok 1) (fun _ => .error ()) ⟨0, 0⟩
      = (⟨1, 0⟩, some ())
    ∧ (1 : ℚ) ≠ 0 := ⟨rfl, by decide⟩

/-- C5 (amended): FreeFormDeformation.update is atomic with respect to u — on
an evaluation failure u keeps its prior contents; for the stationary velocity
variant, a failure of the B-spline evaluation leaves both u and v unchanged,
but a failure of the integration after a successful evaluation leaves v
holding the freshly evaluated field while only u retains its prior contents;
when every step succeeds both buffers are fully updated. -/
theorem C5_update_buffer_amended {ε β : Type} (evalRes : Except ε β)
    (expFlow : β → Except ε β) (st : DerivedBufs β) (u0 : β) :
    (∀ e, evalRes = .error e → ffdUpdate evalRes u0 = (u0, some e))
    ∧ (∀ unew, evalRes = .ok unew → ffdUpdate evalRes u0 = (unew, none))
    ∧ (∀ e, evalRes = .error e → svffdUpdate evalRes expFlow st = (st, some e))
    ∧ (∀ vnew e, evalRes = .ok vnew → expFlow vnew = .error e →
        svffdUpdate evalRes expFlow st = ({ st with v := vnew }, some e))
    ∧ (∀ vnew unew, evalRes = .ok vnew → expFlow vnew = .ok unew →
        svffdUpdate evalRes expFlow st = (⟨vnew, unew⟩, none)) := by
  refine ⟨?_, ?_, ?_, ?_, ?_⟩
  · intro e h; rw [h]; rfl
  · intro unew h; rw [h]; rfl
  · intro e h; rw [h]; rfl
  · intro vnew e h1 h2
    rw [h1]
    show (match expFlow vnew with
      | .error e => ({ st with v := vnew }, some e)
      | .ok unew => (⟨vnew, unew⟩, none)) = _
    rw [h2]
  · intro vnew unew h1 h2
    rw [h1]
    show (match expFlow vnew with
      | .error e => ({ st with v := vnew }, some e)
      | .ok unew => (⟨vnew, unew⟩, none)) = _
    rw [h2]

/-- Witness for C5 at concrete buffers: an evaluation failure leaves both
buffers unchanged, and a fully successful update replaces both. -/
theorem C5_update_buffer_witness :
    svffdUpdate (ε := Unit) (β := ℚ) (.error ()) (fun x => .ok (2 * x)) ⟨3, 4⟩
      = (⟨3, 4⟩, some ())
    ∧ svffdUpdate (ε := Unit) (β := ℚ) (.ok 5) (fun x => .ok (2 * x)) ⟨3, 4⟩
      = (⟨5, 10⟩, none) := by
  have h1 := C5_update_buffer_amended (ε := Unit) (β := ℚ) (.error ())
    (fun x => .ok (2 * x)) ⟨3, 4⟩ 0
  have h2 := C5_update_buffer_amended (ε := Unit) (β := ℚ) (.ok 5)
    (fun x => .ok (2 * x)) ⟨3, 4⟩ 0
  refine ⟨h1.2.2.1 () rfl, ?_⟩
  have h3 := h2.2.2.2.2 5 10 rfl (by norm_num)
  exact h3

/-- Modelled from the spec: the configuration of the ExpFlow
scaling-and-squaring integrator module; its inverse() is an integrator with
the scaling factor negated, integrating the stationary velocity field backward
in time. -/
structure ExpFlow where
  scale : ℚ
  steps : Option ℕ
  align_corners : Bool
deriving DecidableEq

/-- ExpFlow.inverse: negate the scaling factor. -/
def ExpFlow.inverse (e : ExpFlow) : ExpFlow := { e with scale := -e.scale }

/-- The module state of a StationaryVelocityFreeFormDeformation relevant to
inverse(): the coefficient tensor, the derived buffers u and v, the integrator
module, and whether the transform has been linked to another one. -/
structure SVFState where
  params : Tens
  u : Tens
  v : Tens
  exp : ExpFlow
  linked : Bool

/-- StationaryVelocityFreeFormDeformation.inverse (bspline.py lines 230-258),
translated statement by statement: inv = shallow_copy(self); if link:
inv.link_(self); inv.exp = self.exp.inverse(); if update_buffers: inv.u =
inv.exp(inv.v).  Attribute assignments touch only the copy, and the function
returns the original (passed through unchanged, since no statement assigns to
self) together with the copy.  Application of an ExpFlow module to a velocity
field is the abstract collaborator expApply. -/
def svfInverse (expApply : ExpFlow → Tens → Tens) (self : SVFState)
    (link update_buffers : Bool) : SVFState × SVFState :=
  let inv1 := if link then { self with linked := true } else self
  let inv2 := { inv1 with exp := self.exp.inverse }
  let inv3 :=
    if update_buffers then { inv2 with u := expApply inv2.exp inv2.v }
    else inv2
  (self, inv3)

/-- C7: StationaryVelocityFreeFormDeformation.inverse returns a copy that
shares the coefficient tensor and the velocity buffer with the original but
carries its own integrator with the time direction (scaling factor) negated;
the original is left unchanged — its integrator still integrates forward and
its u buffer is untouched even when update_buffers recomputes the inverse u
from the shared v by the negated integrator. -/
theorem C7_svf_inverse_spec (expApply : ExpFlow → Tens → Tens)
    (self : SVFState) (link ub : Bool) :
    (svfInverse expApply self link ub).1 = self
    ∧ (svfInverse expApply self link ub).1.exp = self.exp
    ∧ (svfInverse expApply self link ub).1.u = self.u
    ∧ (svfInverse expApply self link ub).2.params = self.params
    ∧ (svfInverse expApply self link ub).2.v = self.v
    ∧ (svfInverse expApply self link ub).2.exp = self.exp.inverse
    ∧ (svfInverse expApply self link ub).2.exp.scale = -self.exp.scale
    ∧ (ub = true → (svfInverse expApply self link ub).2.u
        = expApply self.exp.inverse self.v)
    ∧ (ub = false → (svfInverse expApply self link ub).2.u = self.u)
    ∧ (link = true → (svfInverse expApply self link ub).2.linked = true) := by
  cases link <;> cases ub <;>
    refine ⟨rfl, rfl, rfl, rfl, rfl, rfl, rfl, ?_, ?_, ?_⟩ <;>
    intro h <;>
    first
      | rfl
      | exact absurd h (by decide)

/-- Concrete integrator configuration for the C7 witness. -/
def C7exp : ExpFlow := ⟨2, some 4, true⟩

/-- Concrete transform state for the C7 witness. -/
def C7self : SVFState :=
  ⟨zerosT [1, 1, 3], zerosT [1, 1, 3], zerosT [1, 1, 3], C7exp, false⟩

/-- Concrete integrator application for the C7 witness. -/
def C7apply : ExpFlow → Tens → Tens := fun _ t => t

/-- Witness for C7 at the concrete state C7self with link and update_buffers
both set. -/
theorem C7_svf_inverse_witness :
    (svfInverse C7apply C7self true true).1 = C7self
    ∧ (svfInverse C7apply C7self true true).2.exp.scale = -2
    ∧ (svfInverse C7apply C7self true true).2.u
        = C7apply (ExpFlow.inverse C7exp) C7self.v
    ∧ (svfInverse C7apply C7self true true).1.u = C7self.u := by
  have h := C7_svf_inverse_spec C7apply C7self true true
  exact ⟨h.1, h.2.2.2.2.2.2.1, h.2.2.2.2.2.2.2.1 rfl, h.2.2.1⟩

end Deepali
